import Mathlib

/-!
Shallow embedding of the Room & Session Coordinator of the Asse23 bingo
server (Deno/TypeScript): the `GameManager` (game-manager.ts), the
`RoomManager` (room-manager.ts) and the WebSocket action handlers of
server.ts.  JavaScript `Map`s are modelled as insertion-ordered
association lists (JS `Map` iteration order is insertion order),
`Math.random()`-driven choices are modelled by explicit `Nat` parameters
(`r`, or a stream of picks), `Date.now()` by an explicit `now : Nat`
parameter, and socket fan-out by the list of broadcast messages emitted
(delivery itself is I/O and out of scope; sockets are assumed open).
-/

namespace Asse23

/-! ### Association-list maps (model of JS `Map`) -/

/-- Model of `Map.get`: first binding for the key, if any. -/
def mapGet {β : Type} (l : List (String × β)) (k : String) : Option β :=
  match l with
  | [] => none
  | p :: t => if p.1 = k then some p.2 else mapGet t k

/-- Model of `Map.set`: replace the binding in place if the key is present,
otherwise append a new binding (JS `Map` semantics). -/
def mapSet {β : Type} (l : List (String × β)) (k : String) (v : β) :
    List (String × β) :=
  if l.any (fun p => decide (p.1 = k)) then
    l.map (fun p => if p.1 = k then (k, v) else p)
  else l ++ [(k, v)]

/-- Model of `Map.delete`: drop the binding for the key. -/
def mapDelete {β : Type} (l : List (String × β)) (k : String) :
    List (String × β) :=
  l.filter (fun p => decide (p.1 ≠ k))

/-! ### Data model -/

structure Settings where
  autoCallNumbers : Bool
  callInterval : Nat
  winPatterns : List String
deriving Repr, DecidableEq

/-- The room-manager.ts `Player` (the per-room membership record; the
`socket` field is transport state and is not modelled). -/
structure RPlayer where
  id : String
  name : String
  isHost : Bool
  isReady : Bool
  score : Nat
deriving Repr, DecidableEq

/-- The room-manager.ts `Room`. -/
structure Room where
  id : String
  code : String
  name : String
  hostId : String
  hostName : String
  gameType : String
  stake : Nat
  maxPlayers : Nat
  players : List RPlayer
  gameStarted : Bool
  createdAt : Nat
  settings : Settings
deriving Repr, DecidableEq

/-- The game-manager.ts `Player` (the presence-directory record, carrying
`board`, `markedNumbers` and `joinedAt`). -/
structure GPlayer where
  id : String
  name : String
  isReady : Bool
  score : Nat
  board : List Nat
  markedNumbers : List Nat
  joinedAt : Nat
deriving Repr, DecidableEq

/-- Mutable fields of the `GameManager` class. -/
structure GameManagerState where
  onlinePlayers : List (String × GPlayer)
  totalPlayers : Nat
  activeGames : Nat
  totalRoomsCreated : Nat
deriving Repr, DecidableEq

/-- Mutable fields of the `RoomManager` class (which also owns a
reference to the `GameManager`). -/
structure RoomManagerState where
  rooms : List (String × Room)
  roomCodes : List String
  gm : GameManagerState
deriving Repr, DecidableEq

/-- Per-room membership list helpers (`room.players` is a JS `Map`
keyed by player id). -/
def playersSet (l : List RPlayer) (p : RPlayer) : List RPlayer :=
  if l.any (fun q => decide (q.id = p.id)) then
    l.map (fun q => if q.id = p.id then p else q)
  else l ++ [p]

def playersDelete (l : List RPlayer) (pid : String) : List RPlayer :=
  l.filter (fun q => decide (q.id ≠ pid))

/-! ### GameManager operations (game-manager.ts) -/

/-- Model of `GameManager.addPlayer`: inserts into `onlinePlayers` and bumps the
monotone `totalPlayers` counter. -/
def gmAddPlayer (g : GameManagerState) (p : GPlayer) : GameManagerState :=
  { g with onlinePlayers := mapSet g.onlinePlayers p.id p,
           totalPlayers := g.totalPlayers + 1 }

/-- Model of `GameManager.removePlayer`. -/
def gmRemovePlayer (g : GameManagerState) (pid : String) : GameManagerState :=
  { g with onlinePlayers := mapDelete g.onlinePlayers pid }

/-- The pattern-name list hard-coded inside `GameManager.verifyWin`. -/
def verifyWinPatterns : List String :=
  ["row", "column", "diagonal", "four-corners", "full-house",
   "one-line", "two-lines", "x-pattern", "frame"]

/-- Model of `GameManager.calculatePrize`: `Math.floor(stake * playerCount * 0.8)`
(for natural inputs, `floor(pot * 0.8) = pot * 4 / 5`). -/
def calculatePrize (stake playerCount : Nat) : Nat :=
  stake * playerCount * 4 / 5

structure WinResult where
  valid : Bool
  amount : Nat
deriving Repr, DecidableEq

/-- Model of `GameManager.verifyWin`: accepts any recognized pattern name and
computes the amount as `calculatePrize(100, 10)`; the `playerId` and
`roomCode` arguments are never consulted (the method body reads no
board, no marked numbers and no called numbers). -/
def verifyWin (playerId pattern roomCode : String) : WinResult :=
  if verifyWinPatterns.contains pattern then
    { valid := true, amount := calculatePrize 100 10 }
  else
    { valid := false, amount := 0 }

/-- The per-variant maximum number of `GameManager.generateRandomNumber`
(`switch (gameType)` with default 75). -/
def gameMaxNumber (gameType : String) : Nat :=
  if gameType = "75ball" ∨ gameType = "pattern" then 75
  else if gameType = "90ball" then 90
  else if gameType = "30ball" then 30
  else 75

structure Drawn where
  number : Nat
  display : String
deriving Repr, DecidableEq

def bingoLetters : List Char := ['B', 'I', 'N', 'G', 'O']

/-- Model of `GameManager.generateRandomNumber`: draws uniformly from the full
variant range (`Math.floor(Math.random() * maxNumber) + 1`, modelled as
`r % maxNumber + 1`) and formats the display label.  No called-number
set is consulted or maintained. -/
def generateRandomNumber (gameType : String) (r : Nat) : Drawn :=
  let maxNumber := gameMaxNumber gameType
  let number := r % maxNumber + 1
  let display :=
    if gameType = "75ball" ∨ gameType = "pattern" then
      let column := (number - 1) / 15
      let letter := bingoLetters.getD (min column 4) 'O'
      String.mk [letter] ++ "-" ++ toString number
    else toString number
  { number := number, display := display }

/-! ### RoomManager operations (room-manager.ts) -/

/-- The fixed two-word vocabulary of `RoomManager.generateRoomCode`. -/
def roomWords : List String :=
  ["ለምን", "ቢንጎ", "አሰፋ", "ደስታ", "እድል", "ሽልማት",
   "ደስተኛ", "አሸናፊ", "ቻንስ", "ጨዋታ", "ደስ", "ሆኖ"]

def makeCode (w1 w2 : String) : String := w1 ++ "-" ++ w2

/-- The retry loop of `RoomManager.generateRoomCode`, with the random
word picks supplied by `stream` and the `do/while` unrolled against an
explicit iteration bound `fuel` (`none` means the loop has not exited
within `fuel` iterations). -/
def generateRoomCodeFuel (taken : List String) (stream : Nat → Nat × Nat) :
    Nat → Option String
  | 0 => none
  | Nat.succ fuel =>
      let pick := stream fuel
      let code := makeCode (roomWords.getD (pick.1 % roomWords.length) "")
                           (roomWords.getD (pick.2 % roomWords.length) "")
      if code ∈ taken then generateRoomCodeFuel taken stream fuel
      else some code

/-- Every code the generator can ever emit: all two-word combinations. -/
def allRoomCodes : List String :=
  roomWords.flatMap (fun w1 => roomWords.map (fun w2 => makeCode w1 w2))

inductive JoinResult where
  | roomMissing
  | full
  | alreadyStarted
  | ok (playerId roomName hostName : String) (maxPlayers : Nat)
       (gameType : String) (stake : Nat) (currentPlayers : Nat)
       (settings : Settings)
deriving Repr, DecidableEq

/-- Model of `RoomManager.joinRoom` (the HTTP join): validates and returns a
fresh player id (`v4.generate()`, supplied here as `freshId`) together
with room metadata.  The method body only reads the room; the state
component of the result records that it leaves the manager state as it
found it. -/
def joinRoom (st : RoomManagerState) (roomCode playerName freshId : String) :
    JoinResult × RoomManagerState :=
  match mapGet st.rooms roomCode with
  | none => (JoinResult.roomMissing, st)
  | some room =>
    if room.players.length ≥ room.maxPlayers then (JoinResult.full, st)
    else if room.gameStarted then (JoinResult.alreadyStarted, st)
    else
      (JoinResult.ok freshId room.name room.hostName room.maxPlayers
        room.gameType room.stake (room.players.length + 1) room.settings, st)

/-- Model of `RoomManager.addPlayerToRoom` (invoked from the WebSocket `join`
message): inserts the player into the room's `players` map — with no
capacity check — and registers the presence record (with
`joinedAt = Date.now()`, supplied here as `now`). -/
def addPlayerToRoom (st : RoomManagerState) (roomCode playerId playerName : String)
    (now : Nat) : RoomManagerState :=
  match mapGet st.rooms roomCode with
  | none => st
  | some room =>
    let first := room.players.isEmpty
    let isHost : Bool := first || decide (room.hostId = playerId)
    let room1 :=
      if first then { room with hostId := playerId, hostName := playerName }
      else room
    let player : RPlayer :=
      { id := playerId, name := playerName, isHost := isHost,
        isReady := false, score := 0 }
    let room2 := { room1 with players := playersSet room1.players player }
    { st with rooms := mapSet st.rooms roomCode room2,
              gm := gmAddPlayer st.gm
                { id := playerId, name := playerName, isReady := false,
                  score := 0, board := [], markedNumbers := [], joinedAt := now } }

/-- Broadcast messages emitted by the coordinator (fan-out over member
sockets is I/O; we record the message itself). -/
inductive Event where
  | welcome (playerId : String)
  | playerJoined (playerId playerName : String) (totalPlayers : Nat)
  | playerLeft (playerId : String)
  | newHost (hostId hostName : String)
  | gameStartedMsg (gameType : String)
  | numberCalled (number : Nat) (display : String)
  | playerMarked (playerId : String) (number : Nat)
  | winner (playerId playerName pattern : String) (amount : Nat)
  | settingsUpdated
  | evictionTimerArmed (roomCode : String)
deriving Repr, DecidableEq

/-- Model of `RoomManager.removePlayerFromRoom`: deletes the member, removes the
presence record, reassigns the host to the first remaining map entry
when the host left a non-empty room (broadcasting `newHost`), and arms
the 5-minute eviction timer when the room became empty (recorded as an
`evictionTimerArmed` event). -/
def removePlayerFromRoom (st : RoomManagerState) (roomCode playerId : String) :
    RoomManagerState × List Event :=
  match mapGet st.rooms roomCode with
  | none => (st, [])
  | some room =>
    let remaining := playersDelete room.players playerId
    let gm1 := gmRemovePlayer st.gm playerId
    let step :=
      if playerId = room.hostId then
        match remaining with
        | [] => ({ room with players := remaining }, ([] : List Event))
        | h :: rest =>
            ({ room with players := { h with isHost := true } :: rest,
                         hostId := h.id, hostName := h.name },
             [Event.newHost h.id h.name])
      else ({ room with players := remaining }, [])
    let events :=
      if step.1.players.isEmpty then
        step.2 ++ [Event.evictionTimerArmed roomCode]
      else step.2
    ({ st with rooms := mapSet st.rooms roomCode step.1, gm := gm1 }, events)

/-- The deferred eviction check scheduled by `removePlayerFromRoom`
(`setTimeout` body): re-validates that the room still exists and is
still empty before deleting it and freeing its code. -/
def evictionCheck (st : RoomManagerState) (roomCode : String) : RoomManagerState :=
  match mapGet st.rooms roomCode with
  | some room =>
    if room.players.isEmpty then
      { st with rooms := mapDelete st.rooms roomCode,
                roomCodes := st.roomCodes.filter (fun c => decide (c ≠ roomCode)) }
    else st
  | none => st

/-! ### server.ts WebSocket action handlers (`handleWsConnection`) -/

/-- Model of `broadcastToRoom` (server.ts): builds the message and fans it out to
the room's members; modelled as the list of messages emitted (empty when
the room does not exist). -/
def broadcastToRoom (st : RoomManagerState) (roomCode : String) (e : Event) :
    List Event :=
  match mapGet st.rooms roomCode with
  | some _ => [e]
  | none => []

/-- The `"join"` case: insert via `addPlayerToRoom`, send `welcome` to
the joiner, broadcast `playerJoined` to the others. -/
def handleJoin (st : RoomManagerState) (roomCode playerId playerName : String)
    (now : Nat) : RoomManagerState × List Event :=
  let st1 := addPlayerToRoom st roomCode playerId playerName now
  match mapGet st1.rooms roomCode with
  | some room =>
    (st1, Event.welcome playerId ::
      broadcastToRoom st1 roomCode
        (Event.playerJoined playerId playerName room.players.length))
  | none => (st1, [])

/-- The `"callNumber"` case: host-only and only while `gameStarted`;
draws via `generateRandomNumber` (random value `r`) and broadcasts
`numberCalled`.  No called-number record is kept anywhere. -/
def handleCallNumber (st : RoomManagerState) (roomCode playerId : String)
    (r : Nat) : RoomManagerState × List Event :=
  match mapGet st.rooms roomCode with
  | some room =>
    if room.hostId = playerId ∧ room.gameStarted then
      let drawn := generateRandomNumber room.gameType r
      (st, broadcastToRoom st roomCode
        (Event.numberCalled drawn.number drawn.display))
    else (st, [])
  | none => (st, [])

/-- The `"markNumber"` case: broadcasts `playerMarked` unconditionally —
no validation against called numbers, and no state change at all. -/
def handleMarkNumber (st : RoomManagerState) (roomCode playerId : String)
    (number : Nat) : RoomManagerState × List Event :=
  (st, broadcastToRoom st roomCode (Event.playerMarked playerId number))

/-- The `"claimWin"` case: calls `GameManager.verifyWin`; when the
result is valid, broadcasts `winner` with the reported amount and then
clears `gameStarted` on the room; otherwise does nothing. -/
def handleClaimWin (st : RoomManagerState) (roomCode playerId playerName pattern : String) :
    RoomManagerState × List Event :=
  let winResult := verifyWin playerId pattern roomCode
  if winResult.valid then
    let events := broadcastToRoom st roomCode
      (Event.winner playerId playerName pattern winResult.amount)
    let st1 :=
      match mapGet st.rooms roomCode with
      | some room =>
          { st with rooms := mapSet st.rooms roomCode { room with gameStarted := false } }
      | none => st
    (st1, events)
  else (st, [])

/-! ### Concrete states used to evaluate the operations -/

def defaultSettings : Settings :=
  { autoCallNumbers := true, callInterval := 7000,
    winPatterns := ["row", "column", "diagonal", "four-corners", "full-house"] }

def mkRPlayer (pid nm : String) (host : Bool) : RPlayer :=
  { id := pid, name := nm, isHost := host, isReady := false, score := 0 }

def mkGPlayer (pid nm : String) (t : Nat) : GPlayer :=
  { id := pid, name := nm, isReady := false, score := 0, board := [],
    markedNumbers := [], joinedAt := t }

/-- A 75-ball room with 4 members and a game in progress; every member's
stored `markedNumbers` is empty. -/
def exRoom : Room :=
  { id := "rid1", code := "ROOM", name := "Main", hostId := "p1", hostName := "Alice",
    gameType := "75ball", stake := 100, maxPlayers := 4,
    players := [mkRPlayer "p1" "Alice" true, mkRPlayer "p2" "Bob" false,
                mkRPlayer "p3" "Cara" false, mkRPlayer "p4" "Dan" false],
    gameStarted := true, createdAt := 0, settings := defaultSettings }

def exState : RoomManagerState :=
  { rooms := [("ROOM", exRoom)], roomCodes := ["ROOM"],
    gm := { onlinePlayers :=
              [("p1", mkGPlayer "p1" "Alice" 1), ("p2", mkGPlayer "p2" "Bob" 2),
               ("p3", mkGPlayer "p3" "Cara" 3), ("p4", mkGPlayer "p4" "Dan" 4)],
            totalPlayers := 4, activeGames := 0, totalRoomsCreated := 1 } }

/-- The join timestamps of `exRoom`'s members, in join order. -/
def exTs : String → Nat :=
  fun s => if s = "p1" then 1 else if s = "p2" then 2 else if s = "p3" then 3 else 4

/-- A lobby-state room that is at capacity (`maxPlayers = 1`, one member). -/
def fullRoom : Room :=
  { id := "rid2", code := "FULL", name := "Tiny", hostId := "q1", hostName := "Quinn",
    gameType := "75ball", stake := 50, maxPlayers := 1,
    players := [mkRPlayer "q1" "Quinn" true],
    gameStarted := false, createdAt := 0, settings := defaultSettings }

def fullState : RoomManagerState :=
  { rooms := [("FULL", fullRoom)], roomCodes := ["FULL"],
    gm := { onlinePlayers := [("q1", mkGPlayer "q1" "Quinn" 1)], totalPlayers := 1,
            activeGames := 0, totalRoomsCreated := 1 } }

/-- A room that currently has zero members. -/
def emptyRoom : Room :=
  { id := "rid3", code := "EMPTY", name := "Idle", hostId := "gone", hostName := "Gone",
    gameType := "90ball", stake := 10, maxPlayers := 8, players := [],
    gameStarted := false, createdAt := 0, settings := defaultSettings }

def emptyState : RoomManagerState :=
  { rooms := [("EMPTY", emptyRoom)], roomCodes := ["EMPTY"],
    gm := { onlinePlayers := [], totalPlayers := 1, activeGames := 0,
            totalRoomsCreated := 1 } }

/-- A lobby-state room with free capacity. -/
def lobbyRoom : Room :=
  { id := "rid4", code := "LOB", name := "Open", hostId := "q1", hostName := "Quinn",
    gameType := "30ball", stake := 20, maxPlayers := 4,
    players := [mkRPlayer "q1" "Quinn" true],
    gameStarted := false, createdAt := 0, settings := defaultSettings }

def lobbyState : RoomManagerState :=
  { rooms := [("LOB", lobbyRoom)], roomCodes := ["LOB"],
    gm := { onlinePlayers := [("q1", mkGPlayer "q1" "Quinn" 1)], totalPlayers := 1,
            activeGames := 0, totalRoomsCreated := 1 } }

/-- The full variant number range `1..n` (the draw pool of a game in
which every number has already been called is exactly this list). -/
def fullRange (n : Nat) : List Nat := List.range' 1 n

/-! ### Helper lemmas about the map model -/

theorem anyKey_of_mapGet {β : Type} {l : List (String × β)} {k : String} {w : β}
    (h : mapGet l k = some w) : (l.any fun p => decide (p.1 = k)) = true := by
  induction l with
  | nil => simp [mapGet] at h
  | cons p t ih =>
    by_cases hp : p.1 = k
    · simp [hp]
    · simp only [mapGet, if_neg hp] at h
      simp [hp, ih h]

theorem mapGet_overwrite {β : Type} {l : List (String × β)} {k : String} {w : β}
    (v : β) (h : mapGet l k = some w) :
    mapGet (l.map fun p => if p.1 = k then (k, v) else p) k = some v := by
  induction l with
  | nil => simp [mapGet] at h
  | cons p t ih =>
    by_cases hp : p.1 = k
    · simp [mapGet, hp]
    · simp only [mapGet, if_neg hp] at h
      simp [mapGet, if_neg hp, ih h]

theorem mapGet_mapSet_self {β : Type} {l : List (String × β)} {k : String} {w : β}
    (v : β) (h : mapGet l k = some w) : mapGet (mapSet l k v) k = some v := by
  rw [mapSet, if_pos (anyKey_of_mapGet h)]
  exact mapGet_overwrite v h

theorem mapGet_mapDelete_self {β : Type} (l : List (String × β)) (k : String) :
    mapGet (mapDelete l k) k = none := by
  induction l with
  | nil => rfl
  | cons p t ih =>
    by_cases hp : p.1 = k
    · simpa [mapDelete, List.filter_cons, hp] using ih
    · simpa [mapDelete, List.filter_cons, hp, mapGet] using ih

/-! ### Claim theorems -/

/-- C1: in the code, win-claim acceptance never consults the claimant's
stored board, marked numbers or any called-number record: `verifyWin`
accepts every claim whose pattern name is `"row"` for every player and
every room, and in `exState` — where every stored `markedNumbers` is
empty, so no geometric pattern is covered on any board — the `"row"`
claim is accepted and a `winner` broadcast is emitted anyway. -/
theorem c1_claim_accepted_without_coverage_check :
    (∀ playerId roomCode, verifyWin playerId "row" roomCode =
        { valid := true, amount := 800 }) ∧
    ((exState.gm.onlinePlayers.map fun p => p.2.markedNumbers) = [[], [], [], []]) ∧
    (handleClaimWin exState "ROOM" "p1" "Alice" "row").2 =
      [Event.winner "p1" "Alice" "row" 800] :=
  ⟨fun _ _ => rfl, by decide, by decide⟩

/-- C2: nothing rejects a second win claim: after a first accepted claim
has emitted its `winner` broadcast and cleared `gameStarted`, a second
`claimWin` for the same room is accepted just the same and emits a
second `winner` broadcast (no `GameAlreadyResolved` rejection exists in
the code). -/
theorem c2_second_claim_accepted_again :
    ((handleClaimWin exState "ROOM" "p1" "Alice" "row").2 =
      [Event.winner "p1" "Alice" "row" 800]) ∧
    ((mapGet (handleClaimWin exState "ROOM" "p1" "Alice" "row").1.rooms "ROOM").map
        Room.gameStarted = some false) ∧
    ((handleClaimWin (handleClaimWin exState "ROOM" "p1" "Alice" "row").1
        "ROOM" "p2" "Bob" "row").2 = [Event.winner "p2" "Bob" "row" 800]) := by
  refine ⟨by decide, by decide, by decide⟩

/-- C3: the prize carried by the `winner` broadcast is the hard-coded
`calculatePrize 100 10 = 800`, not `floor(stake * playerCount * 0.8)` of
the room: in `exState` (stake 100, 4 players) the broadcast amount is
800 while the claimed formula gives `calculatePrize 100 4 = 320`. -/
theorem c3_amount_is_hardcoded_800 :
    calculatePrize 100 4 = 320 ∧
    ((mapGet exState.rooms "ROOM").map Room.stake = some 100) ∧
    ((mapGet exState.rooms "ROOM").map (fun r => r.players.length) = some 4) ∧
    ((handleClaimWin exState "ROOM" "p1" "Alice" "full-house").2 =
      [Event.winner "p1" "Alice" "full-house" 800]) ∧
    (800 : Nat) ≠ 320 := by
  refine ⟨by decide, by decide, by decide, by decide, by decide⟩

/-- C4: the draw consults no called-number record: `generateRandomNumber`
always returns a member of the full variant range — so once every number
of the range has been called, every further draw returns an
already-called number and no `PoolExhausted` failure is possible (the
function has no failure outcome); moreover `callNumber` leaves the state
unchanged (no `calledNumbers` is recorded), so the same random value
redraws the very same number. -/
theorem c4_draw_ignores_called_numbers :
    (∀ r : Nat, (generateRandomNumber "30ball" r).number ∈ fullRange 30) ∧
    (handleCallNumber exState "ROOM" "p1" 4).1 = exState ∧
    (handleCallNumber exState "ROOM" "p1" 4).2 = [Event.numberCalled 5 "B-5"] := by
  refine ⟨fun r => ?_, by decide, by decide⟩
  show r % 30 + 1 ∈ List.range' 1 30
  refine List.mem_range'_1.mpr ⟨by omega, ?_⟩
  have := Nat.mod_lt r (show 0 < 30 by omega)
  omega

/-- C5: the WebSocket join path has no capacity check: `joinRoom` (HTTP)
does reject a join against the full room, but `addPlayerToRoom` inserts
a new member into the very same full room, taking `players.length` to 2
while `maxPlayers = 1`. -/
theorem c5_ws_join_inserts_into_full_room :
    ((joinRoom fullState "FULL" "Bob" "q2").1 = JoinResult.full) ∧
    ((mapGet fullState.rooms "FULL").map Room.maxPlayers = some 1) ∧
    ((mapGet (addPlayerToRoom fullState "FULL" "q2" "Bob" 10).rooms "FULL").map
        (fun r => r.players.length) = some 2) := by
  refine ⟨by decide, by decide, by decide⟩

/-- C7: the `markNumber` handler validates nothing: it changes no state
(so no `markedNumbers` is ever updated server-side) and unconditionally
broadcasts `playerMarked`, also for a number that was never called (no
called-number record exists to check against). -/
theorem c7_mark_broadcast_unconditional :
    (∀ st roomCode playerId n, (handleMarkNumber st roomCode playerId n).1 = st) ∧
    (handleMarkNumber exState "ROOM" "p1" 99).2 = [Event.playerMarked "p1" 99] :=
  ⟨fun _ _ _ _ => rfl, by decide⟩

/-- Every code the generator's loop body can pick is one of the two-word
combinations in `allRoomCodes`. -/
theorem makeCode_getD_mem (i j : Nat) :
    makeCode (roomWords.getD (i % roomWords.length) "")
      (roomWords.getD (j % roomWords.length) "") ∈ allRoomCodes := by
  have hlen : 0 < roomWords.length := by decide
  have hi : i % roomWords.length < roomWords.length := Nat.mod_lt _ hlen
  have hj : j % roomWords.length < roomWords.length := Nat.mod_lt _ hlen
  have h1 : roomWords.getD (i % roomWords.length) "" ∈ roomWords := by
    rw [List.getD_eq_getElem _ _ hi]; exact List.getElem_mem hi
  have h2 : roomWords.getD (j % roomWords.length) "" ∈ roomWords := by
    rw [List.getD_eq_getElem _ _ hj]; exact List.getElem_mem hj
  exact List.mem_flatMap.mpr ⟨_, h1, List.mem_map_of_mem _ h2⟩

/-- C8: the `do/while` of `generateRoomCode` never exits once every
two-word combination is a live code: for every stream of random picks
and every iteration bound, the loop has not produced a code — it loops
without bound instead of failing with `ResourceExhausted` (no such
failure exists in the code). -/
theorem c8_generation_never_exits_when_exhausted :
    ∀ (stream : Nat → Nat × Nat) (fuel : Nat),
      generateRoomCodeFuel allRoomCodes stream fuel = none := by
  intro stream fuel
  induction fuel with
  | zero => rfl
  | succ n ih =>
    simp only [generateRoomCodeFuel]
    rw [if_pos (makeCode_getD_mem (stream n).1 (stream n).2)]
    exact ih

/-- C9: the deferred eviction check re-validates emptiness when it
fires: a room that is still empty is removed from the registry and its
code freed, while a room that has at least one member at firing time is
left untouched by the check — and hence by any number of overlapping
scheduled checks. -/
theorem c9_eviction_check_revalidates (st : RoomManagerState) (roomCode : String)
    (room : Room) (hfind : mapGet st.rooms roomCode = some room) :
    (room.players = [] →
      mapGet (evictionCheck st roomCode).rooms roomCode = none ∧
      roomCode ∉ (evictionCheck st roomCode).roomCodes) ∧
    (room.players ≠ [] →
      ∀ n, Nat.iterate (fun s => evictionCheck s roomCode) n st = st) := by
  constructor
  · intro hemp
    have hred : evictionCheck st roomCode =
        { st with rooms := mapDelete st.rooms roomCode,
                  roomCodes := st.roomCodes.filter fun c => decide (c ≠ roomCode) } := by
      simp [evictionCheck, hfind, hemp]
    rw [hred]
    refine ⟨mapGet_mapDelete_self _ _, ?_⟩
    simp [List.mem_filter]
  · intro hne
    have hid : evictionCheck st roomCode = st := by
      simp [evictionCheck, hfind, List.isEmpty_iff, hne]
    intro n
    induction n with
    | zero => rfl
    | succ m ih => rw [Function.iterate_succ_apply, hid, ih]

/-- Witness for C9: firing the check on the concrete empty room removes
it and frees its code. -/
theorem c9_eviction_check_revalidates_witness :
    (mapGet emptyState.rooms "EMPTY" = some emptyRoom ∧ emptyRoom.players = []) ∧
    (mapGet (evictionCheck emptyState "EMPTY").rooms "EMPTY" = none ∧
     "EMPTY" ∉ (evictionCheck emptyState "EMPTY").roomCodes) :=
  ⟨⟨by decide, by decide⟩,
    (c9_eviction_check_revalidates emptyState "EMPTY" emptyRoom (by decide)).1 (by decide)⟩

/-- Lemma: `addPlayerToRoom` on an existing room always inserts: when the new
player id is not already a key of the room's `players` map, the stored
room gains exactly one member, whose id is the new player's id (there is
no capacity check on this path). -/
theorem addPlayerToRoom_inserts (st : RoomManagerState)
    (roomCode playerId playerName : String) (now : Nat) (room : Room)
    (hfind : mapGet st.rooms roomCode = some room)
    (hany : (room.players.any fun q => decide (q.id = playerId)) = false) :
    ∃ room', mapGet (addPlayerToRoom st roomCode playerId playerName now).rooms
        roomCode = some room' ∧
      room'.players.length = room.players.length + 1 ∧
      ∃ p ∈ room'.players, p.id = playerId := by
  have hr1p : (if room.players.isEmpty
      then { room with hostId := playerId, hostName := playerName }
      else room).players = room.players := by
    by_cases hE : room.players.isEmpty <;> simp [hE]
  have hkey : ∀ pl : RPlayer, pl.id = playerId →
      playersSet room.players pl = room.players ++ [pl] := by
    intro pl hid
    have hc : (room.players.any fun q => decide (q.id = pl.id)) = false := by
      rw [hid]; exact hany
    rw [playersSet, hc]
    simp
  simp only [addPlayerToRoom, hfind]
  refine ⟨_, mapGet_mapSet_self _ hfind, ?_, ?_⟩
  · show (playersSet (if room.players.isEmpty
        then { room with hostId := playerId, hostName := playerName }
        else room).players
        { id := playerId, name := playerName,
          isHost := room.players.isEmpty || decide (room.hostId = playerId),
          isReady := false, score := 0 }).length = room.players.length + 1
    rw [hr1p, hkey _ rfl]
    simp
  · refine ⟨{ id := playerId, name := playerName,
              isHost := room.players.isEmpty || decide (room.hostId = playerId),
              isReady := false, score := 0 }, ?_, rfl⟩
    show _ ∈ playersSet (if room.players.isEmpty
        then { room with hostId := playerId, hostName := playerName }
        else room).players
        { id := playerId, name := playerName,
          isHost := room.players.isEmpty || decide (room.hostId = playerId),
          isReady := false, score := 0 }
    rw [hr1p, hkey _ rfl]
    simp

/-- C10: the HTTP join is read-only: on a joinable room it returns a
fresh player id and the room metadata while leaving the whole manager
state — in particular the room's `players` map and `hostId` — exactly as
it found it; the member is inserted only by `addPlayerToRoom`, the
handler of the subsequent WebSocket `join` message. -/
theorem c10_http_join_is_read_only (st : RoomManagerState)
    (roomCode playerName freshId : String) (room : Room) (now : Nat)
    (hfind : mapGet st.rooms roomCode = some room)
    (hnotfull : ¬ room.players.length ≥ room.maxPlayers)
    (hnotstarted : room.gameStarted = false)
    (hfresh : ∀ p ∈ room.players, p.id ≠ freshId) :
    (joinRoom st roomCode playerName freshId).2 = st ∧
    (joinRoom st roomCode playerName freshId).1 =
      JoinResult.ok freshId room.name room.hostName room.maxPlayers room.gameType
        room.stake (room.players.length + 1) room.settings ∧
    ∃ room', mapGet (addPlayerToRoom st roomCode freshId playerName now).rooms
        roomCode = some room' ∧
      room'.players.length = room.players.length + 1 ∧
      ∃ p ∈ room'.players, p.id = freshId := by
  have hany : (room.players.any fun q => decide (q.id = freshId)) = false := by
    rw [List.any_eq_false]
    intro p hp
    simp [hfresh p hp]
  refine ⟨?_, ?_, ?_⟩
  · simp [joinRoom, hfind, hnotfull, hnotstarted]
  · simp [joinRoom, hfind, hnotfull, hnotstarted]
  · exact addPlayerToRoom_inserts st roomCode freshId playerName now room hfind hany

/-- Witness for C10: joining the concrete lobby room over HTTP leaves
the state untouched; the subsequent WebSocket insertion adds the member. -/
theorem c10_http_join_is_read_only_witness :
    (mapGet lobbyState.rooms "LOB" = some lobbyRoom ∧
     ¬ lobbyRoom.players.length ≥ lobbyRoom.maxPlayers ∧
     lobbyRoom.gameStarted = false ∧ ∀ p ∈ lobbyRoom.players, p.id ≠ "q9") ∧
    ((joinRoom lobbyState "LOB" "Eve" "q9").2 = lobbyState ∧
     ∃ room', mapGet (addPlayerToRoom lobbyState "LOB" "q9" "Eve" 42).rooms "LOB" =
         some room' ∧
       room'.players.length = lobbyRoom.players.length + 1 ∧
       ∃ p ∈ room'.players, p.id = "q9") := by
  refine ⟨⟨by decide, by decide, by decide, by decide⟩, ?_, ?_⟩
  · exact (c10_http_join_is_read_only lobbyState "LOB" "Eve" "q9" lobbyRoom 42
      (by decide) (by decide) (by decide) (by decide)).1
  · exact (c10_http_join_is_read_only lobbyState "LOB" "Eve" "q9" lobbyRoom 42
      (by decide) (by decide) (by decide) (by decide)).2.2

/-- C6: when the departing player is the host, `removePlayerFromRoom`
behaves as claimed.  `ts` assigns each member their `joinedAt`
timestamp; since the `players` map iterates in insertion order and
members are appended as they join, the map order is the join order, so
the timestamps along `room.players` are strictly increasing
(`hsorted`).  If members remain, the new `hostId` is the id of a member
present in the room whose `joinedAt` is minimal among the remaining
members, and a `newHost` broadcast is emitted; if the room became empty,
no member carries the (stale) `hostId` and the eviction timer is armed. -/
theorem c6_host_reassigned_to_earliest_joined (st : RoomManagerState)
    (roomCode : String) (room : Room) (ts : String → Nat)
    (hfind : mapGet st.rooms roomCode = some room)
    (hsorted : List.Pairwise (· < ·) (room.players.map fun p => ts p.id)) :
    (∀ h rest, playersDelete room.players room.hostId = h :: rest →
      ∃ room', mapGet (removePlayerFromRoom st roomCode room.hostId).1.rooms
          roomCode = some room' ∧
        room'.hostId = h.id ∧
        (∃ p ∈ room'.players, p.id = room'.hostId) ∧
        (∀ q ∈ playersDelete room.players room.hostId, ts room'.hostId ≤ ts q.id) ∧
        Event.newHost h.id h.name ∈ (removePlayerFromRoom st roomCode room.hostId).2) ∧
    (playersDelete room.players room.hostId = [] →
      ∃ room', mapGet (removePlayerFromRoom st roomCode room.hostId).1.rooms
          roomCode = some room' ∧
        room'.players = [] ∧
        (∀ p ∈ room'.players, p.id ≠ room'.hostId) ∧
        Event.evictionTimerArmed roomCode ∈
          (removePlayerFromRoom st roomCode room.hostId).2) := by
  constructor
  · intro h rest hrem
    have hred : removePlayerFromRoom st roomCode room.hostId =
        ({ st with
            rooms := mapSet st.rooms roomCode
              ({ room with players := ({ h with isHost := true }) :: rest,
                           hostId := h.id, hostName := h.name }),
            gm := gmRemovePlayer st.gm room.hostId },
         [Event.newHost h.id h.name]) := by
      simp only [removePlayerFromRoom, hfind]
      rw [hrem]
      simp
    rw [hred]
    refine ⟨_, mapGet_mapSet_self _ hfind, rfl, ?_, ?_, ?_⟩
    · exact ⟨{ h with isHost := true }, by simp, rfl⟩
    · intro q hq
      have hsub : List.Sublist (playersDelete room.players room.hostId) room.players :=
        List.filter_sublist _
      have hpair : List.Pairwise (· < ·)
          ((playersDelete room.players room.hostId).map fun p => ts p.id) :=
        hsorted.sublist (hsub.map _)
      rw [hrem] at hq hpair
      rw [List.map_cons, List.pairwise_cons] at hpair
      rcases List.mem_cons.mp hq with rfl | hq2
      · exact le_refl _
      · exact le_of_lt (hpair.1 _ (List.mem_map_of_mem _ hq2))
    · simp
  · intro hrem
    have hred : removePlayerFromRoom st roomCode room.hostId =
        ({ st with
            rooms := mapSet st.rooms roomCode ({ room with players := [] }),
            gm := gmRemovePlayer st.gm room.hostId },
         [Event.evictionTimerArmed roomCode]) := by
      simp only [removePlayerFromRoom, hfind]
      rw [hrem]
      simp
    rw [hred]
    refine ⟨_, mapGet_mapSet_self _ hfind, rfl, ?_, ?_⟩
    · intro p hp
      simp at hp
    · simp

/-- Witness for C6: the host `p1` leaves the concrete 4-member room; the
host role passes to `p2`, the earliest-joined remaining member, and a
`newHost` broadcast is emitted. -/
theorem c6_host_reassigned_to_earliest_joined_witness :
    (mapGet exState.rooms "ROOM" = some exRoom ∧
     List.Pairwise (· < ·) (exRoom.players.map fun p => exTs p.id) ∧
     playersDelete exRoom.players exRoom.hostId =
       mkRPlayer "p2" "Bob" false ::
         [mkRPlayer "p3" "Cara" false, mkRPlayer "p4" "Dan" false]) ∧
    ∃ room', mapGet (removePlayerFromRoom exState "ROOM" exRoom.hostId).1.rooms
        "ROOM" = some room' ∧
      room'.hostId = "p2" ∧
      Event.newHost "p2" "Bob" ∈ (removePlayerFromRoom exState "ROOM" exRoom.hostId).2 := by
  refine ⟨⟨by decide, by decide, by decide⟩, ?_⟩
  obtain ⟨room', h1, h2, h3, h4, h5⟩ :=
    (c6_host_reassigned_to_earliest_joined exState "ROOM" exRoom exTs (by decide)
        (by decide)).1
      (mkRPlayer "p2" "Bob" false)
      [mkRPlayer "p3" "Cara" false, mkRPlayer "p4" "Dan" false] (by decide)
  exact ⟨room', h1, h2, h5⟩

end Asse23
